import Mathlib

/- Verification of the IPA protocol-runtime core: replicated secret sharing,
   the Reshare sub-protocol, the random-bits generator with its fallback
   channel, sort-permutation application, and the in-memory test network. -/

namespace Ipa

/-- Modelled from the spec: the message direction used by `Role::peer`; the
source of the `Direction` enum is not under src/. -/
inductive Direction where
  | Left
  | Right
deriving DecidableEq, Repr

/-- Modelled from the spec: one of `{H1, H2, H3}` with `left()` and `right()`
neighbors in the ring; the source of the `Role` enum is not under src/. -/
inductive Role where
  | H1
  | H2
  | H3
deriving DecidableEq, Repr

/-- Modelled from the spec: `peer(Direction)` returns the neighbor in the
given direction of the ring H1 -> H2 -> H3 -> H1. -/
def Role.peer : Role → Direction → Role
  | .H1, .Left => .H3
  | .H1, .Right => .H2
  | .H2, .Left => .H1
  | .H2, .Right => .H3
  | .H3, .Left => .H2
  | .H3, .Right => .H1

def allRoles : List Role := [.H1, .H2, .H3]

/-- The replicated share type: an ordered pair `(left, right)` of field
values, embedding `Replicated<F>` with its `left()` and `right()` accessors. -/
structure Replicated (F : Type) where
  left : F
  right : F
deriving DecidableEq, Repr

/-- The canonical replicated sharing `(s1, s2, s3)`: helper `H_i` holds
`(s_i, s_{i+1})` (spec section 3, used by `Reshare` tests through `share`). -/
def replicatedOf {F : Type} (s1 s2 s3 : F) : Role → Replicated F
  | .H1 => ⟨s1, s2⟩
  | .H2 => ⟨s2, s3⟩
  | .H3 => ⟨s3, s1⟩

/-- Embedding of the send half of `Reshare::execute`
(src/src/protocol/sort/reshare.rs, lines 47-67): the helper at
`to_helper.left` sends `part1 = input.left + input.right - r1` to
`to_helper.right`; the helper at `to_helper.right` sends
`part2 = input.left - r0` to `to_helper.left`; `to_helper` sends nothing.
The result is the addressee together with the payload. -/
def reshareSends {F : Type} [Field F] (role to_helper : Role)
    (input : Replicated F) (r0 r1 : F) : Option (Role × F) :=
  if role = to_helper.peer .Left then
    some (to_helper.peer .Right, input.left + input.right - r1)
  else if role = to_helper.peer .Right then
    some (to_helper.peer .Left, input.left - r0)
  else
    none

/-- The message delivered from `sender` to `receiver` in one `Reshare`
execution: the payload of `sender`'s message when it is addressed to
`receiver`, mirroring the gateway's delivery of `send` to the matching
`receive` at the same record id. -/
def reshareDeliver {F : Type} [Field F] (to_helper : Role)
    (input : Role → Replicated F) (prss : Role → F × F)
    (sender receiver : Role) : Option F :=
  (reshareSends sender to_helper (input sender) (prss sender).1 (prss sender).2).bind
    fun m => if m.1 = receiver then some m.2 else none

/-- Embedding of `Reshare::execute` (src/src/protocol/sort/reshare.rs,
lines 37-78) run at helper `r`, with the network resolved: `(r0, r1)` is the
helper's PRSS pair, and the received value is the message delivered by the
peer the code receives from (`to_helper.right` for the left branch,
`to_helper.left` for the right branch). Returns `none` when no message was
delivered (a receive that would block forever). -/
def reshareRun {F : Type} [Field F] (to_helper : Role)
    (input : Role → Replicated F) (prss : Role → F × F) (r : Role) :
    Option (Replicated F) :=
  if r = to_helper.peer .Left then
    (reshareDeliver to_helper input prss (to_helper.peer .Right) r).map fun part2 =>
      ⟨((input r).left + (input r).right - (prss r).2) + part2, (prss r).2⟩
  else if r = to_helper.peer .Right then
    (reshareDeliver to_helper input prss (to_helper.peer .Left) r).map fun part1 =>
      ⟨(prss r).1, part1 + ((input r).left - (prss r).1)⟩
  else
    some ⟨(prss r).1, (prss r).2⟩

instance : Fact (Nat.Prime 31) := ⟨by norm_num⟩

/-- A concrete PRSS assignment over `Fp31` used to instantiate theorems with
hypotheses: helper `H_i`'s right value equals `H_{i+1}`'s left value. -/
def prssW : Role → ZMod 31 × ZMod 31
  | .H1 => (9, 4)
  | .H2 => (4, 6)
  | .H3 => (6, 9)

/-- Modelled from the spec: `TotalRecords` is either `Specified(n)` or
`Indeterminate`; the additional `Unspecified` state is what
`is_total_records_unspecified` tests (the `TotalRecords` source is not under
src/). -/
inductive TotalRecords where
  | Unspecified
  | Specified (n : Nat)
  | Indeterminate
deriving DecidableEq, Repr

/-- Modelled from the spec: a context carries the current step (an immutable
path of substep strings) and the total-records hint; the `Context` source is
not under src/. The role, gateway and PRSS handles are irrelevant to the
claims about the random-bits generator and are omitted. -/
structure Context where
  step : List String
  totalRecords : TotalRecords
deriving DecidableEq, Repr

/-- Modelled from the spec: `narrow(child)` yields a new step appending the
child substep. -/
def Context.narrow (c : Context) (s : String) : Context :=
  { c with step := c.step ++ [s] }

/-- Modelled from the spec: `set_total_records(n)` returns a child context
with totals fixed; error if already specified. -/
def Context.setTotalRecords (c : Context) (t : TotalRecords) : Option Context :=
  match c.totalRecords with
  | .Specified _ => none
  | _ => some { c with totalRecords := t }

/-- Modelled from the spec: `is_total_records_unspecified()`. -/
def Context.isTotalRecordsUnspecified (c : Context) : Bool :=
  match c.totalRecords with
  | .Unspecified => true
  | _ => false

/-- Embedding of the `RBGStep` enum
(src/src/protocol/boolean/random_bits_generator.rs, lines 46-51). -/
inductive RBGStep where
  | FallbackChannel
deriving DecidableEq, Repr

/-- Embedding of `AsRef<str> for RBGStep`
(src/src/protocol/boolean/random_bits_generator.rs, lines 53-59). -/
def RBGStep.asRef : RBGStep → String
  | .FallbackChannel => "fallback"

/-- Embedding of `CountingGenerator`
(src/src/protocol/boolean/random_bits_generator.rs, lines 39-44): an atomic
record counter together with the context it issues `solved_bits` calls on. -/
structure CountingGenerator where
  counter : Nat
  ctx : Context
deriving DecidableEq, Repr

/-- Embedding of `RandomBitsGenerator`
(src/src/protocol/boolean/random_bits_generator.rs, lines 24-36). -/
structure RandomBitsGenerator where
  defaultGenerator : CountingGenerator
  fallbackGenerator : CountingGenerator
  abortCount : Nat
deriving DecidableEq, Repr

/-- The behaviour of `solved_bits(ctx, record_id)` as seen by the generator:
a deterministic map from the context and record id to an error, `None`
(rejection-sampling failure) or `Some` share. The `solved_bits` source is not
under src/, and the claims only constrain how the generator consumes it. -/
def SolvedBitsOracle (E V : Type) : Type :=
  Context → Nat → Except E (Option V)

/-- Embedding of `CountingGenerator::next`
(src/src/protocol/boolean/random_bits_generator.rs, lines 128-131): fetch
and increment the counter, then call `solved_bits` on the fetched id. The
counter is an `AtomicU32`, so `fetch_add(1)` wraps: the stored counter is
the increment reduced modulo `2 ^ 32`. -/
def CountingGenerator.next {E V : Type} (sb : SolvedBitsOracle E V)
    (g : CountingGenerator) : CountingGenerator × Except E (Option V) :=
  ({ g with counter := (g.counter + 1) % 2 ^ 32 }, sb g.ctx g.counter)

/-- Embedding of the fallback loop inside `RandomBitsGenerator::generate`
(src/src/protocol/boolean/random_bits_generator.rs, lines 98-103): each
iteration increments `abort_count`, then draws from the fallback generator;
an error propagates, `Some v` breaks with `Ok(v)`, `None` loops. The loop is
bounded by explicit fuel; `none` in the second component means the fuel ran
out with the loop still running. -/
def fallbackLoop {E V : Type} (sb : SolvedBitsOracle E V) :
    Nat → RandomBitsGenerator → RandomBitsGenerator × Option (Except E V)
  | 0, rbg => (rbg, none)
  | fuel + 1, rbg =>
    let rbg1 := { rbg with abortCount := rbg.abortCount + 1 }
    let drawn := rbg1.fallbackGenerator.next sb
    let rbg2 := { rbg1 with fallbackGenerator := drawn.1 }
    match drawn.2 with
    | .error e => (rbg2, some (.error e))
    | .ok (some v) => (rbg2, some (.ok v))
    | .ok none => fallbackLoop sb fuel rbg2

/-- Embedding of `RandomBitsGenerator::generate`
(src/src/protocol/boolean/random_bits_generator.rs, lines 94-105): one draw
from the default generator; `Some v` returns `Ok(v)`, an error propagates,
`None` enters the fallback loop. -/
def RandomBitsGenerator.generate {E V : Type} (sb : SolvedBitsOracle E V)
    (fuel : Nat) (rbg : RandomBitsGenerator) :
    RandomBitsGenerator × Option (Except E V) :=
  let drawn := rbg.defaultGenerator.next sb
  let rbg1 := { rbg with defaultGenerator := drawn.1 }
  match drawn.2 with
  | .error e => (rbg1, some (.error e))
  | .ok (some v) => (rbg1, some (.ok v))
  | .ok none => fallbackLoop sb fuel rbg1

/-- Embedding of `RandomBitsGenerator::aborts`
(src/src/protocol/boolean/random_bits_generator.rs, lines 107-111). -/
def RandomBitsGenerator.aborts (rbg : RandomBitsGenerator) : Nat :=
  rbg.abortCount

/-- Embedding of `RandomBitsGenerator::new`
(src/src/protocol/boolean/random_bits_generator.rs, lines 69-85): the
`total_records` argument is dropped; the default generator runs on the base
context and the fallback generator on the `FallbackChannel`-narrowed context,
both set to `Indeterminate` total records, both counters starting at `0`,
with `abort_count` starting at `0`. -/
def RandomBitsGenerator.new (ctx : Context) (totalRecords : TotalRecords) :
    Option RandomBitsGenerator :=
  (ctx.setTotalRecords .Indeterminate).bind fun dctx =>
    ((ctx.narrow (RBGStep.asRef .FallbackChannel)).setTotalRecords .Indeterminate).map
      fun fctx =>
        { defaultGenerator := { counter := 0, ctx := dctx },
          fallbackGenerator := { counter := 0, ctx := fctx },
          abortCount := 0 }

/-- The record ids consumed by `m` successive `CountingGenerator::next` calls
starting from state `g` (the id consumed by a call is the counter value it
fetched). -/
def cgConsumed {E V : Type} (sb : SolvedBitsOracle E V) :
    Nat → CountingGenerator → List Nat
  | 0, _ => []
  | m + 1, g => g.counter :: cgConsumed sb m (g.next sb).1

/-- A concrete `solved_bits` behaviour used to instantiate theorems with
hypotheses: the base-step channel always rejects, the fallback channel
succeeds at record id 2 with value 7. -/
def sbW : SolvedBitsOracle Unit Nat := fun c n =>
  if c.step = ([] : List String) then .ok none
  else if n = 2 then .ok (some 7) else .ok none

/-- A concrete generator state used to instantiate theorems with
hypotheses: both counters and the abort count at zero, contexts as built by
`RandomBitsGenerator::new` from the root context. -/
def rbgW : RandomBitsGenerator :=
  { defaultGenerator := { counter := 0, ctx := { step := [], totalRecords := .Indeterminate } },
    fallbackGenerator :=
      { counter := 0, ctx := { step := ["fallback"], totalRecords := .Indeterminate } },
    abortCount := 0 }

/-- Whether an `Except` result is `Ok` (the `Result::is_ok` view of a
fallible operation). -/
def isOkE {E A : Type} : Except E A → Bool
  | .ok _ => true
  | .error _ => false

/-- Embedding of `Reshare::execute` (src/src/protocol/sort/reshare.rs,
lines 37-78) with its fallible channel operations explicit: `sendRes` is the
outcome of the branch's `send` and `recvRes` the outcome of its `receive`
(both from the transport, whose source is not under src/); the `?` operator
is `Except.bind`. The helper equal to `to_helper` performs neither. -/
def reshareExecE {Er F : Type} [Field F] (role to_helper : Role)
    (input : Replicated F) (r0 r1 : F)
    (sendRes : Except Er Unit) (recvRes : Except Er F) : Except Er (Replicated F) :=
  if role = to_helper.peer .Left then
    sendRes.bind fun _ => recvRes.bind fun part2 =>
      .ok ⟨((input.left + input.right) - r1) + part2, r1⟩
  else if role = to_helper.peer .Right then
    sendRes.bind fun _ => recvRes.bind fun part1 =>
      .ok ⟨r0, part1 + (input.left - r0)⟩
  else
    .ok ⟨r0, r1⟩

/-- Embedding of `apply_sort_permutation`
(src/src/protocol/sort/apply_sort/mod.rs, lines 20-43) with the fallible
shuffle explicit: `shuffleRes` is the outcome of the awaited
`shuffle_shares` call (`?` propagates its error) and `applyRevealed` is the
local, infallible `apply_inv` application of the revealed permutation. -/
def applySortPermutationE {Er A : Type} (shuffleRes : Except Er A)
    (applyRevealed : A → A) : Except Er A :=
  match shuffleRes with
  | .error e => .error e
  | .ok shuffled => .ok (applyRevealed shuffled)

/-- Embedding of the `ApplyInvStep` substep enum named at the
`shuffle_shares` call site of src/src/protocol/sort/apply_sort/mod.rs; its
string form is modelled from the spec's reserved substep `shuffle-inputs`
(the enum source is not under src/). -/
inductive ApplyInvStep where
  | ShuffleInputs
deriving DecidableEq, Repr

/-- Modelled from the spec: the reserved substep string for `ShuffleInputs`. -/
def ApplyInvStep.asRef : ApplyInvStep → String
  | .ShuffleInputs => "shuffle-inputs"

/-- Embedding of `RevealedAndRandomPermutations`: the revealed permutation
together with the two PRSS-derived random shuffle components (the defining
source is not under src/; the shape is taken from its uses in
src/src/protocol/sort/apply_sort/mod.rs). Permutations on `n` records are
functions `Fin n → Fin n`. -/
structure RevealedAndRandomPermutations (n : Nat) where
  revealed : Fin n → Fin n
  randomsForShuffle : (Fin n → Fin n) × (Fin n → Fin n)

/-- Modelled from the spec: `apply_inv` applies a permutation to a sequence
locally, with no communication (the `apply` module is not under src/):
position `i` of the result is the input at position `perm i`. -/
def apply_inv {n : Nat} {A : Type} (perm : Fin n → Fin n) (v : Fin n → A) :
    Fin n → A :=
  fun i => v (perm i)

/-- Modelled from the spec: `shuffle_shares` executes three sub-shuffles
whose combined effect is a single permutation of the record positions (the
shuffle source is not under src/). At the opening level the re-randomization
performed by resharing does not change the reconstructed values, so the
model permutes every helper's share vector by the combined permutation;
`combine` abstracts how the two PRSS-derived components compose into that
permutation. -/
def shuffle_shares {F : Type} [Field F] {n : Nat}
    (combine : (Fin n → Fin n) × (Fin n → Fin n) → Fin n → Fin n)
    (randoms : (Fin n → Fin n) × (Fin n → Fin n))
    (shares : Role → Fin n → Replicated F) : Role → Fin n → Replicated F :=
  fun r => apply_inv (combine randoms) (shares r)

/-- Embedding of `apply_sort_permutation`
(src/src/protocol/sort/apply_sort/mod.rs, lines 20-43): shuffle the input
with the random permutation components under the context narrowed by
`ShuffleInputs`, then apply the revealed permutation locally. The context
passed to the shuffle is returned alongside the shares to record the step
the shuffle ran under. -/
def apply_sort_permutation {F : Type} [Field F] {n : Nat}
    (combine : (Fin n → Fin n) × (Fin n → Fin n) → Fin n → Fin n)
    (ctx : Context) (input : Role → Fin n → Replicated F)
    (sort_permutation : RevealedAndRandomPermutations n) :
    Context × (Role → Fin n → Replicated F) :=
  let shuffleCtx := ctx.narrow (ApplyInvStep.asRef .ShuffleInputs)
  let shuffled := shuffle_shares combine sort_permutation.randomsForShuffle input
  (shuffleCtx, fun r => apply_inv sort_permutation.revealed (shuffled r))

/-- Opening a shared vector: the position-wise sum of the three helpers'
left coordinates (the reconstruction of a replicated sharing). -/
def openShares {F : Type} [Field F] {n : Nat}
    (shares : Role → Fin n → Replicated F) : Fin n → F :=
  fun i => (shares .H1 i).left + (shares .H2 i).left + (shares .H3 i).left

/-- Modelled from the spec: a helper identity is one of the three ring
positions; conversion from an integer (`try_into` in
src/src/test_fixture/transport/network.rs) is fallible and admits exactly
1, 2 and 3 (the `HelperIdentity` source is not under src/). -/
abbrev HelperIdentity : Type := { n : Nat // 1 ≤ n ∧ n ≤ 3 }

/-- Modelled from the spec: the fallible `try_into` conversion from an
integer to a `HelperIdentity`. -/
def helperIdentityTryFrom (n : Nat) : Option HelperIdentity :=
  if h : 1 ≤ n ∧ n ≤ 3 then some ⟨n, h⟩ else none

/-- Modelled from the spec: an in-memory transport carries its identity and
non-owning references to the peers it has been connected to (the
`InMemoryTransport` source is not under src/; peers are recorded by
identity). -/
structure InMemoryTransport where
  identity : HelperIdentity
  peers : List HelperIdentity
deriving DecidableEq

/-- Modelled from the spec: `InMemoryTransport::with_stub_callbacks` creates
an unconnected transport with the given identity. -/
def InMemoryTransport.withStubCallbacks (id : HelperIdentity) : InMemoryTransport :=
  ⟨id, []⟩

/-- Modelled from the spec: `connect` links two transports, each recording a
non-owning reference to the other; both updated transports are returned. -/
def InMemoryTransport.connect (a b : InMemoryTransport) :
    InMemoryTransport × InMemoryTransport :=
  ({ a with peers := a.peers ++ [b.identity] },
    { b with peers := b.peers ++ [a.identity] })

/-- Embedding of `InMemoryNetwork`
(src/src/test_fixture/transport/network.rs, lines 9-12): the container owns
the three transports; ownership (`Arc`) is modelled by containment in this
list. -/
structure InMemoryNetwork where
  transports : List InMemoryTransport
deriving DecidableEq

/-- A non-owning (`Weak`) handle to a transport owned by a network,
modelled as the index of the owned slot it points at. -/
structure WeakHandle where
  target : Nat
deriving DecidableEq

/-- Upgrading a weak handle against the owning network: the transport in the
slot the handle points at, if the slot exists. -/
def WeakHandle.upgrade (net : InMemoryNetwork) (w : WeakHandle) :
    Option InMemoryTransport :=
  net.transports.get? w.target

/-- Embedding of `InMemoryNetwork::default`
(src/src/test_fixture/transport/network.rs, lines 14-29): three transports
with identities 1, 2, 3; `first.connect(second)`, `second.connect(third)`,
`third.connect(first)`; the network owns the three started transports in
construction order. -/
def InMemoryNetwork.default : InMemoryNetwork :=
  let first := InMemoryTransport.withStubCallbacks ⟨1, by omega⟩
  let second := InMemoryTransport.withStubCallbacks ⟨2, by omega⟩
  let third := InMemoryTransport.withStubCallbacks ⟨3, by omega⟩
  let fs := first.connect second
  let st := fs.2.connect third
  let tf := st.2.connect fs.1
  { transports := [tf.2, st.1, tf.1] }

/-- Embedding of `InMemoryNetwork::helper_identities`
(src/src/test_fixture/transport/network.rs, lines 34-41). -/
def InMemoryNetwork.helperIdentities (net : InMemoryNetwork) : List HelperIdentity :=
  net.transports.map (fun t => t.identity)

/-- Embedding of `InMemoryNetwork::transport`
(src/src/test_fixture/transport/network.rs, lines 43-49): find the first
owned transport with the given identity and downgrade it to a weak handle. -/
def InMemoryNetwork.transport (net : InMemoryNetwork) (id : HelperIdentity) :
    Option WeakHandle :=
  (net.transports.findIdx? (fun t => t.identity == id)).map WeakHandle.mk

/-- Embedding of `InMemoryNetwork::transports`
(src/src/test_fixture/transport/network.rs, lines 51-63): downgrade every
owned transport, in order, to a non-owning handle. -/
def InMemoryNetwork.weakTransports (net : InMemoryNetwork) : List WeakHandle :=
  (List.range net.transports.length).map WeakHandle.mk

/-- The first transport of the default network, written out. -/
def netT1 : InMemoryTransport :=
  ⟨⟨1, by omega⟩, [⟨2, by omega⟩, ⟨3, by omega⟩]⟩

/-- The second transport of the default network, written out. -/
def netT2 : InMemoryTransport :=
  ⟨⟨2, by omega⟩, [⟨1, by omega⟩, ⟨3, by omega⟩]⟩

/-- The third transport of the default network, written out. -/
def netT3 : InMemoryTransport :=
  ⟨⟨3, by omega⟩, [⟨2, by omega⟩, ⟨1, by omega⟩]⟩

end Ipa

namespace Ipa

/-- C1: for every field `F`, every secret split into a replicated sharing
`(s1, s2, s3)`, every target role, and consistent PRSS values (each helper's
right PRSS value equals its right neighbor's left value), the three outputs
of `Reshare::execute` are delivered to every helper, form a consistent
replicated sharing, and reconstruct (sum of the three distinct coordinates)
to the original secret `s1 + s2 + s3`. -/
theorem reshare_reconstructs_secret (F : Type) [Field F] (to_helper : Role)
    (s1 s2 s3 : F) (prss : Role → F × F)
    (h12 : (prss .H1).2 = (prss .H2).1)
    (h23 : (prss .H2).2 = (prss .H3).1)
    (h31 : (prss .H3).2 = (prss .H1).1) :
    ∃ o : Role → Replicated F,
      (∀ r : Role, reshareRun to_helper (replicatedOf s1 s2 s3) prss r = some (o r))
      ∧ (∀ r : Role, (o r).right = (o (r.peer .Right)).left)
      ∧ (o .H1).left + (o .H2).left + (o .H3).left = s1 + s2 + s3 := by
  cases to_helper with
  | H1 =>
    refine ⟨fun r => match r with
      | .H3 => ⟨((s3 + s1 - (prss .H3).2) + (s2 - (prss .H2).1)), (prss .H3).2⟩
      | .H2 => ⟨(prss .H2).1, ((s3 + s1 - (prss .H3).2) + (s2 - (prss .H2).1))⟩
      | .H1 => ⟨(prss .H1).1, (prss .H1).2⟩, ?_, ?_, ?_⟩
    · intro r
      cases r <;> rfl
    · intro r
      cases r
      · exact h12
      · rfl
      · exact h31
    · rw [h31]
      ring
  | H2 =>
    refine ⟨fun r => match r with
      | .H1 => ⟨((s1 + s2 - (prss .H1).2) + (s3 - (prss .H3).1)), (prss .H1).2⟩
      | .H3 => ⟨(prss .H3).1, ((s1 + s2 - (prss .H1).2) + (s3 - (prss .H3).1))⟩
      | .H2 => ⟨(prss .H2).1, (prss .H2).2⟩, ?_, ?_, ?_⟩
    · intro r
      cases r <;> rfl
    · intro r
      cases r
      · exact h12
      · exact h23
      · rfl
    · rw [h12]
      ring
  | H3 =>
    refine ⟨fun r => match r with
      | .H2 => ⟨((s2 + s3 - (prss .H2).2) + (s1 - (prss .H1).1)), (prss .H2).2⟩
      | .H1 => ⟨(prss .H1).1, ((s2 + s3 - (prss .H2).2) + (s1 - (prss .H1).1))⟩
      | .H3 => ⟨(prss .H3).1, (prss .H3).2⟩, ?_, ?_, ?_⟩
    · intro r
      cases r <;> rfl
    · intro r
      cases r
      · rfl
      · exact h23
      · exact h31
    · rw [h23]
      ring

/-- Witness for C1: resharing `17 = 5 + 10 + 2` over `Fp31` to helper `H3`
with a concrete consistent PRSS assignment reconstructs to `17`. -/
theorem reshare_reconstructs_secret_witness :
    ∃ o : Role → Replicated (ZMod 31),
      (∀ r : Role, reshareRun .H3 (replicatedOf 5 10 2) prssW r = some (o r))
      ∧ (∀ r : Role, (o r).right = (o (r.peer .Right)).left)
      ∧ (o .H1).left + (o .H2).left + (o .H3).left = 5 + 10 + 2 :=
  reshare_reconstructs_secret (ZMod 31) .H3 5 10 2 prssW (by decide) (by decide)
    (by decide)

/-- C2: `Reshare::execute` follows exactly the specified algorithm. The
helper at `to_helper.left` sends `part1 = input.left + input.right - r1` to
`to_helper.right` and returns `(part1 + part2, r1)`; the helper at
`to_helper.right` sends `part2 = input.left - r0` to `to_helper.left` and
returns `(r0, part1 + part2)`; `to_helper` sends nothing, is delivered
nothing, and returns `(r0, r1)`; exactly two messages are sent in total. -/
theorem reshare_algorithm_exact (F : Type) [Field F] (to_helper : Role)
    (input : Role → Replicated F) (prss : Role → F × F) :
    reshareSends (to_helper.peer .Left) to_helper (input (to_helper.peer .Left))
        (prss (to_helper.peer .Left)).1 (prss (to_helper.peer .Left)).2
      = some (to_helper.peer .Right,
          (input (to_helper.peer .Left)).left + (input (to_helper.peer .Left)).right
            - (prss (to_helper.peer .Left)).2)
    ∧ reshareSends (to_helper.peer .Right) to_helper (input (to_helper.peer .Right))
        (prss (to_helper.peer .Right)).1 (prss (to_helper.peer .Right)).2
      = some (to_helper.peer .Left,
          (input (to_helper.peer .Right)).left - (prss (to_helper.peer .Right)).1)
    ∧ reshareSends to_helper to_helper (input to_helper)
        (prss to_helper).1 (prss to_helper).2 = none
    ∧ (∀ s : Role, reshareDeliver to_helper input prss s to_helper = none)
    ∧ reshareRun to_helper input prss (to_helper.peer .Left)
      = some ⟨((input (to_helper.peer .Left)).left + (input (to_helper.peer .Left)).right
            - (prss (to_helper.peer .Left)).2)
          + ((input (to_helper.peer .Right)).left - (prss (to_helper.peer .Right)).1),
          (prss (to_helper.peer .Left)).2⟩
    ∧ reshareRun to_helper input prss (to_helper.peer .Right)
      = some ⟨(prss (to_helper.peer .Right)).1,
          ((input (to_helper.peer .Left)).left + (input (to_helper.peer .Left)).right
            - (prss (to_helper.peer .Left)).2)
          + ((input (to_helper.peer .Right)).left - (prss (to_helper.peer .Right)).1)⟩
    ∧ reshareRun to_helper input prss to_helper
      = some ⟨(prss to_helper).1, (prss to_helper).2⟩
    ∧ (allRoles.filter fun r =>
        (reshareSends r to_helper (input r) (prss r).1 (prss r).2).isSome).length = 2 := by
  cases to_helper <;>
    refine ⟨rfl, rfl, rfl, ?_, rfl, rfl, rfl, rfl⟩ <;>
    (intro s; cases s <;> rfl)

theorem fallbackLoop_defaultGenerator {E V : Type} (sb : SolvedBitsOracle E V) :
    ∀ (fuel : Nat) (rbg : RandomBitsGenerator),
      (fallbackLoop sb fuel rbg).1.defaultGenerator = rbg.defaultGenerator := by
  intro fuel
  induction fuel with
  | zero => intro rbg; rfl
  | succ fuel ih =>
    intro rbg
    simp only [fallbackLoop, CountingGenerator.next]
    split
    · rfl
    · rfl
    · exact ih _

theorem fallbackLoop_counter_le {E V : Type} (sb : SolvedBitsOracle E V) :
    ∀ (fuel : Nat) (rbg : RandomBitsGenerator),
      rbg.fallbackGenerator.counter + fuel < 2 ^ 32 →
      rbg.fallbackGenerator.counter
        ≤ (fallbackLoop sb fuel rbg).1.fallbackGenerator.counter := by
  intro fuel
  induction fuel with
  | zero => intro rbg _; exact Nat.le_refl _
  | succ fuel ih =>
    intro rbg hb
    have hmod : (rbg.fallbackGenerator.counter + 1) % 2 ^ 32
        = rbg.fallbackGenerator.counter + 1 := Nat.mod_eq_of_lt (by omega)
    simp only [fallbackLoop, CountingGenerator.next, hmod]
    split
    · exact Nat.le_succ _
    · exact Nat.le_succ _
    · exact Nat.le_trans (Nat.le_succ _)
        (ih ⟨rbg.defaultGenerator,
          ⟨rbg.fallbackGenerator.counter + 1, rbg.fallbackGenerator.ctx⟩,
          rbg.abortCount + 1⟩
          (show rbg.fallbackGenerator.counter + 1 + fuel < 2 ^ 32 by omega))

theorem fallbackLoop_first_some {E V : Type} (sb : SolvedBitsOracle E V) (v : V) :
    ∀ (k fuel : Nat) (rbg : RandomBitsGenerator), k < fuel →
      rbg.fallbackGenerator.counter + k < 2 ^ 32 →
      (∀ j : Nat, j < k →
        sb rbg.fallbackGenerator.ctx (rbg.fallbackGenerator.counter + j) = .ok none) →
      sb rbg.fallbackGenerator.ctx (rbg.fallbackGenerator.counter + k) = .ok (some v) →
      fallbackLoop sb fuel rbg
        = (⟨rbg.defaultGenerator,
            ⟨(rbg.fallbackGenerator.counter + (k + 1)) % 2 ^ 32,
              rbg.fallbackGenerator.ctx⟩,
            rbg.abortCount + (k + 1)⟩, some (.ok v)) := by
  intro k
  induction k with
  | zero =>
    intro fuel rbg hk hb hnone hsome
    cases fuel with
    | zero => exact (Nat.not_lt_zero _ hk).elim
    | succ fuel =>
      have h0 : sb rbg.fallbackGenerator.ctx rbg.fallbackGenerator.counter
          = .ok (some v) := by simpa using hsome
      simp [fallbackLoop, CountingGenerator.next, h0]
  | succ k ih =>
    intro fuel rbg hk hb hnone hsome
    cases fuel with
    | zero => exact (Nat.not_lt_zero _ hk).elim
    | succ fuel =>
      have h0 : sb rbg.fallbackGenerator.ctx rbg.fallbackGenerator.counter
          = .ok none := by simpa using hnone 0 (Nat.succ_pos k)
      have hmod : (rbg.fallbackGenerator.counter + 1) % 2 ^ 32
          = rbg.fallbackGenerator.counter + 1 := Nat.mod_eq_of_lt (by omega)
      have step := ih fuel
        ⟨rbg.defaultGenerator,
          ⟨rbg.fallbackGenerator.counter + 1, rbg.fallbackGenerator.ctx⟩,
          rbg.abortCount + 1⟩
        (Nat.lt_of_succ_lt_succ hk)
        (show rbg.fallbackGenerator.counter + 1 + k < 2 ^ 32 by omega)
        (fun j hj => by
          have hj2 := hnone (j + 1) (Nat.succ_lt_succ hj)
          have e : rbg.fallbackGenerator.counter + (j + 1)
              = rbg.fallbackGenerator.counter + 1 + j := by omega
          rw [e] at hj2
          exact hj2)
        (by
          have hs2 := hsome
          have e : rbg.fallbackGenerator.counter + (k + 1)
              = rbg.fallbackGenerator.counter + 1 + k := by omega
          rw [e] at hs2
          exact hs2)
      have e1 : rbg.fallbackGenerator.counter + 1 + (k + 1)
          = rbg.fallbackGenerator.counter + (k + 1 + 1) := by omega
      have e2 : rbg.abortCount + 1 + (k + 1) = rbg.abortCount + (k + 1 + 1) := by omega
      rw [e1, e2] at step
      simp only [fallbackLoop, CountingGenerator.next, h0, hmod]
      exact step

/-- C3: `generate()` draws from the default generator exactly once; `Some v`
returns `Ok(v)` with `abort_count` and the fallback generator untouched;
`None` enters the fallback loop, which increments `abort_count` before every
fallback draw and returns the first `Some` value; the total recorded by
`aborts()` equals the number of fallback draws made. -/
theorem rbg_generate_contract (E V : Type) (sb : SolvedBitsOracle E V) (fuel : Nat)
    (rbg : RandomBitsGenerator) (dres : Option V) (k : Nat) (v : V)
    (hd : sb rbg.defaultGenerator.ctx rbg.defaultGenerator.counter = .ok dres)
    (hk : k < fuel)
    (hfc : rbg.fallbackGenerator.counter + k + 1 < 2 ^ 32)
    (hnone : ∀ j : Nat, j < k →
      sb rbg.fallbackGenerator.ctx (rbg.fallbackGenerator.counter + j) = .ok none)
    (hsome : sb rbg.fallbackGenerator.ctx (rbg.fallbackGenerator.counter + k)
      = .ok (some v)) :
    (RandomBitsGenerator.generate sb fuel rbg).1.defaultGenerator.counter
        = (rbg.defaultGenerator.counter + 1) % 2 ^ 32
    ∧ (∀ w : V, dres = some w →
        RandomBitsGenerator.generate sb fuel rbg
          = (⟨⟨(rbg.defaultGenerator.counter + 1) % 2 ^ 32, rbg.defaultGenerator.ctx⟩,
              rbg.fallbackGenerator, rbg.abortCount⟩, some (.ok w)))
    ∧ (dres = none →
        RandomBitsGenerator.generate sb fuel rbg
          = (⟨⟨(rbg.defaultGenerator.counter + 1) % 2 ^ 32, rbg.defaultGenerator.ctx⟩,
              ⟨rbg.fallbackGenerator.counter + (k + 1), rbg.fallbackGenerator.ctx⟩,
              rbg.abortCount + (k + 1)⟩, some (.ok v)))
    ∧ (RandomBitsGenerator.generate sb fuel rbg).1.aborts
        = rbg.aborts + ((RandomBitsGenerator.generate sb fuel rbg).1.fallbackGenerator.counter
            - rbg.fallbackGenerator.counter) := by
  cases dres with
  | some w =>
    have hgen : RandomBitsGenerator.generate sb fuel rbg
        = (⟨⟨(rbg.defaultGenerator.counter + 1) % 2 ^ 32, rbg.defaultGenerator.ctx⟩,
            rbg.fallbackGenerator, rbg.abortCount⟩, some (.ok w)) := by
      simp [RandomBitsGenerator.generate, CountingGenerator.next, hd]
    refine ⟨by rw [hgen], ?_, ?_, ?_⟩
    · intro w2 hw
      rw [hgen]
      cases hw
      rfl
    · intro hcontr
      exact Option.noConfusion hcontr
    · rw [hgen]
      simp [RandomBitsGenerator.aborts]
  | none =>
    have hfb := fallbackLoop_first_some sb v k fuel
      ⟨⟨(rbg.defaultGenerator.counter + 1) % 2 ^ 32, rbg.defaultGenerator.ctx⟩,
        rbg.fallbackGenerator, rbg.abortCount⟩ hk
      (show rbg.fallbackGenerator.counter + k < 2 ^ 32 by omega) hnone hsome
    have hmodeq : (rbg.fallbackGenerator.counter + (k + 1)) % 2 ^ 32
        = rbg.fallbackGenerator.counter + (k + 1) := Nat.mod_eq_of_lt (by omega)
    rw [hmodeq] at hfb
    have hgen : RandomBitsGenerator.generate sb fuel rbg
        = fallbackLoop sb fuel
            ⟨⟨(rbg.defaultGenerator.counter + 1) % 2 ^ 32, rbg.defaultGenerator.ctx⟩,
              rbg.fallbackGenerator, rbg.abortCount⟩ := by
      simp [RandomBitsGenerator.generate, CountingGenerator.next, hd]
    refine ⟨?_, ?_, ?_, ?_⟩
    · rw [hgen, hfb]
    · intro w2 hw
      exact Option.noConfusion hw
    · intro _
      rw [hgen, hfb]
    · rw [hgen, hfb]
      simp [RandomBitsGenerator.aborts]

/-- Witness for C3: with the base channel rejecting and the fallback channel
succeeding at record id 2, `generate` performs three fallback draws, ends
with `abort_count = 3`, and returns the value 7. -/
theorem rbg_generate_contract_witness :
    (RandomBitsGenerator.generate sbW 5 rbgW).1.defaultGenerator.counter
        = (rbgW.defaultGenerator.counter + 1) % 2 ^ 32
    ∧ (∀ w : Nat, (none : Option Nat) = some w →
        RandomBitsGenerator.generate sbW 5 rbgW
          = (⟨⟨(rbgW.defaultGenerator.counter + 1) % 2 ^ 32, rbgW.defaultGenerator.ctx⟩,
              rbgW.fallbackGenerator, rbgW.abortCount⟩, some (.ok w)))
    ∧ ((none : Option Nat) = none →
        RandomBitsGenerator.generate sbW 5 rbgW
          = (⟨⟨(rbgW.defaultGenerator.counter + 1) % 2 ^ 32, rbgW.defaultGenerator.ctx⟩,
              ⟨rbgW.fallbackGenerator.counter + (2 + 1), rbgW.fallbackGenerator.ctx⟩,
              rbgW.abortCount + (2 + 1)⟩, some (.ok 7)))
    ∧ (RandomBitsGenerator.generate sbW 5 rbgW).1.aborts
        = rbgW.aborts + ((RandomBitsGenerator.generate sbW 5 rbgW).1.fallbackGenerator.counter
            - rbgW.fallbackGenerator.counter) :=
  rbg_generate_contract Unit Nat sbW 5 rbgW none 2 7 rfl (by omega) (by norm_num [rbgW])
    (by intro j hj; interval_cases j <;> rfl) rfl

theorem range'_le_of_mem : ∀ (m c x : Nat), x ∈ List.range' c m → c ≤ x := by
  intro m
  induction m with
  | zero =>
    intro c x hx
    simp [List.range'] at hx
  | succ m ih =>
    intro c x hx
    rcases List.mem_cons.mp hx with h | h
    · omega
    · have := ih (c + 1) x h
      omega

theorem pairwise_lt_rangeAux : ∀ (m c : Nat), List.Pairwise (· < ·) (List.range' c m) := by
  intro m
  induction m with
  | zero => intro c; simp [List.range']
  | succ m ih =>
    intro c
    refine List.Pairwise.cons ?_ (ih (c + 1))
    intro x hx
    have := range'_le_of_mem m (c + 1) x hx
    omega

theorem cgConsumed_eq_range {E V : Type} (sb : SolvedBitsOracle E V) :
    ∀ (m : Nat) (g : CountingGenerator), g.counter + m ≤ 2 ^ 32 →
      cgConsumed sb m g = List.range' g.counter m := by
  intro m
  induction m with
  | zero => intro g _; rfl
  | succ m ih =>
    intro g hg
    simp only [cgConsumed, CountingGenerator.next]
    by_cases hlt : g.counter + 1 < 2 ^ 32
    · have hmod : (g.counter + 1) % 2 ^ 32 = g.counter + 1 := Nat.mod_eq_of_lt hlt
      rw [hmod]
      have tail := ih ⟨g.counter + 1, g.ctx⟩
        (show g.counter + 1 + m ≤ 2 ^ 32 by omega)
      rw [tail]
      rfl
    · have hm0 : m = 0 := by omega
      subst hm0
      rfl

theorem cgConsumed_wrapped {E V : Type} (sb : SolvedBitsOracle E V) (c0 : Context) :
    ∀ (m c : Nat), c < 2 ^ 32 →
      cgConsumed sb m ⟨c, c0⟩ = (List.range m).map (fun j => (c + j) % 2 ^ 32) := by
  intro m
  induction m with
  | zero => intro c _; rfl
  | succ m ih =>
    intro c hc
    have tail := ih ((c + 1) % 2 ^ 32) (Nat.mod_lt _ (by norm_num))
    have hfe : (fun j => ((c + 1) % 2 ^ 32 + j) % 2 ^ 32)
        = ((fun j => (c + j) % 2 ^ 32) ∘ Nat.succ) := by
      funext j
      show ((c + 1) % 2 ^ 32 + j) % 2 ^ 32 = (c + Nat.succ j) % 2 ^ 32
      rw [Nat.mod_add_mod]
      congr 1
      omega
    have h0 : (c + 0) % 2 ^ 32 = c := by omega
    simp only [cgConsumed, CountingGenerator.next]
    rw [tail, hfe, List.range_succ_eq_map, List.map_cons, List.map_map, h0]

/-- C5 (amended): each `CountingGenerator` consumes exactly one record id
per `next()` call whatever `solved_bits` returns, the counter advancing
modulo `2 ^ 32` (it is an `AtomicU32`); within a single `2 ^ 32`-id window
the ids consumed by `m` calls from a fresh counter are `0, 1, ..., m-1`,
strictly increasing and never reused — the u32 counter wraps after `2 ^ 32`
calls, after which ids repeat — and `generate()` consumes one
default-channel id on every call and fallback-channel ids exactly when the
default draw returned `None`. -/
theorem counting_generator_fresh_ids (E V : Type) (sb : SolvedBitsOracle E V)
    (g : CountingGenerator) (m fuel : Nat) (rbg : RandomBitsGenerator)
    (hfuel : 0 < fuel)
    (hg : g.counter + m ≤ 2 ^ 32)
    (hm : m ≤ 2 ^ 32)
    (hfb : rbg.fallbackGenerator.counter + fuel < 2 ^ 32) :
    (g.next sb).1.counter = (g.counter + 1) % 2 ^ 32
    ∧ (g.next sb).1.ctx = g.ctx
    ∧ cgConsumed sb m g = List.range' g.counter m
    ∧ cgConsumed sb m ⟨0, g.ctx⟩ = List.range m
    ∧ List.Pairwise (· < ·) (cgConsumed sb m g)
    ∧ (RandomBitsGenerator.generate sb fuel rbg).1.defaultGenerator.counter
        = (rbg.defaultGenerator.counter + 1) % 2 ^ 32
    ∧ (sb rbg.defaultGenerator.ctx rbg.defaultGenerator.counter = .ok none →
        rbg.fallbackGenerator.counter
          < (RandomBitsGenerator.generate sb fuel rbg).1.fallbackGenerator.counter)
    ∧ (∀ w : V, sb rbg.defaultGenerator.ctx rbg.defaultGenerator.counter = .ok (some w) →
        (RandomBitsGenerator.generate sb fuel rbg).1.fallbackGenerator
          = rbg.fallbackGenerator)
    ∧ (∀ e : E, sb rbg.defaultGenerator.ctx rbg.defaultGenerator.counter = .error e →
        (RandomBitsGenerator.generate sb fuel rbg).1.fallbackGenerator
          = rbg.fallbackGenerator) := by
  refine ⟨rfl, rfl, cgConsumed_eq_range sb m g hg, ?_, ?_, ?_, ?_, ?_, ?_⟩
  · rw [cgConsumed_eq_range sb m ⟨0, g.ctx⟩ (show 0 + m ≤ 2 ^ 32 by omega)]
    rw [List.range_eq_range']
  · rw [cgConsumed_eq_range sb m g hg]
    exact pairwise_lt_rangeAux m g.counter
  · cases hsb : sb rbg.defaultGenerator.ctx rbg.defaultGenerator.counter with
    | error e => simp [RandomBitsGenerator.generate, CountingGenerator.next, hsb]
    | ok w =>
      cases w with
      | some v => simp [RandomBitsGenerator.generate, CountingGenerator.next, hsb]
      | none =>
        simp only [RandomBitsGenerator.generate, CountingGenerator.next, hsb]
        rw [fallbackLoop_defaultGenerator]
  · intro hnone
    simp only [RandomBitsGenerator.generate, CountingGenerator.next, hnone]
    cases fuel with
    | zero => exact (Nat.not_lt_zero 0 hfuel).elim
    | succ f =>
      have hmod : (rbg.fallbackGenerator.counter + 1) % 2 ^ 32
          = rbg.fallbackGenerator.counter + 1 := Nat.mod_eq_of_lt (by omega)
      simp only [fallbackLoop, CountingGenerator.next, hmod]
      split
      · exact Nat.lt_succ_self _
      · exact Nat.lt_succ_self _
      · have hle := fallbackLoop_counter_le sb f
          ⟨⟨(rbg.defaultGenerator.counter + 1) % 2 ^ 32, rbg.defaultGenerator.ctx⟩,
            ⟨rbg.fallbackGenerator.counter + 1, rbg.fallbackGenerator.ctx⟩,
            rbg.abortCount + 1⟩
          (show rbg.fallbackGenerator.counter + 1 + f < 2 ^ 32 by omega)
        have hred : rbg.fallbackGenerator.counter + 1
            ≤ (fallbackLoop sb f
                ⟨⟨(rbg.defaultGenerator.counter + 1) % 2 ^ 32, rbg.defaultGenerator.ctx⟩,
                  ⟨rbg.fallbackGenerator.counter + 1, rbg.fallbackGenerator.ctx⟩,
                  rbg.abortCount + 1⟩).1.fallbackGenerator.counter := hle
        omega
  · intro w hw
    simp [RandomBitsGenerator.generate, CountingGenerator.next, hw]
  · intro e he
    simp [RandomBitsGenerator.generate, CountingGenerator.next, he]

/-- Witness for C5 at a concrete oracle, counting generator and fuel. -/
theorem counting_generator_fresh_ids_witness :
    (rbgW.defaultGenerator.next sbW).1.counter
        = (rbgW.defaultGenerator.counter + 1) % 2 ^ 32
    ∧ (rbgW.defaultGenerator.next sbW).1.ctx = rbgW.defaultGenerator.ctx
    ∧ cgConsumed sbW 4 rbgW.defaultGenerator
        = List.range' rbgW.defaultGenerator.counter 4
    ∧ cgConsumed sbW 4 ⟨0, rbgW.defaultGenerator.ctx⟩ = List.range 4
    ∧ List.Pairwise (· < ·) (cgConsumed sbW 4 rbgW.defaultGenerator)
    ∧ (RandomBitsGenerator.generate sbW 5 rbgW).1.defaultGenerator.counter
        = (rbgW.defaultGenerator.counter + 1) % 2 ^ 32
    ∧ (sbW rbgW.defaultGenerator.ctx rbgW.defaultGenerator.counter = .ok none →
        rbgW.fallbackGenerator.counter
          < (RandomBitsGenerator.generate sbW 5 rbgW).1.fallbackGenerator.counter)
    ∧ (∀ w : Nat, sbW rbgW.defaultGenerator.ctx rbgW.defaultGenerator.counter
          = .ok (some w) →
        (RandomBitsGenerator.generate sbW 5 rbgW).1.fallbackGenerator
          = rbgW.fallbackGenerator)
    ∧ (∀ e : Unit, sbW rbgW.defaultGenerator.ctx rbgW.defaultGenerator.counter
          = .error e →
        (RandomBitsGenerator.generate sbW 5 rbgW).1.fallbackGenerator
          = rbgW.fallbackGenerator) :=
  counting_generator_fresh_ids Unit Nat sbW rbgW.defaultGenerator 4 5 rbgW (by omega)
    (by decide) (by decide) (by decide)

/-- Counterexample to C5 as stated: the record counter is an `AtomicU32`
whose `fetch_add` wraps, so over `2 ^ 32 + 1` draws the id `0` is consumed
both by the first call and by the call made after the counter wraps: record
ids are reused and the consumed sequence is not strictly increasing. -/
theorem counting_generator_id_reuse :
    (cgConsumed sbW (2 ^ 32 + 1)
        ⟨0, { step := [], totalRecords := .Indeterminate }⟩).get? 0 = some 0
    ∧ (cgConsumed sbW (2 ^ 32 + 1)
        ⟨0, { step := [], totalRecords := .Indeterminate }⟩).get? (2 ^ 32) = some 0
    ∧ ¬ List.Pairwise (· < ·)
        (cgConsumed sbW (2 ^ 32 + 1)
          ⟨0, { step := [], totalRecords := .Indeterminate }⟩) := by
  have h := cgConsumed_wrapped sbW { step := [], totalRecords := .Indeterminate }
    (2 ^ 32 + 1) 0 (by norm_num)
  have e1 : (cgConsumed sbW (2 ^ 32 + 1)
      ⟨0, { step := [], totalRecords := .Indeterminate }⟩).get? 0 = some 0 := by
    rw [h, List.get?_map, List.get?_range (by norm_num)]
    norm_num
  have e2 : (cgConsumed sbW (2 ^ 32 + 1)
      ⟨0, { step := [], totalRecords := .Indeterminate }⟩).get? (2 ^ 32) = some 0 := by
    rw [h, List.get?_map, List.get?_range (by norm_num)]
    simp
  refine ⟨e1, e2, ?_⟩
  intro hp
  have hlen : (cgConsumed sbW (2 ^ 32 + 1)
      ⟨0, { step := [], totalRecords := .Indeterminate }⟩).length = 2 ^ 32 + 1 := by
    rw [h]
    simp
  have hi0 : 0 < (cgConsumed sbW (2 ^ 32 + 1)
      ⟨0, { step := [], totalRecords := .Indeterminate }⟩).length := by omega
  have hi2 : 2 ^ 32 < (cgConsumed sbW (2 ^ 32 + 1)
      ⟨0, { step := [], totalRecords := .Indeterminate }⟩).length := by omega
  have hlt := List.pairwise_iff_get.mp hp ⟨0, hi0⟩ ⟨2 ^ 32, hi2⟩
    (Fin.mk_lt_mk.mpr (by norm_num))
  have q1 := List.get?_eq_get hi0
  have q2 := List.get?_eq_get hi2
  rw [e1] at q1
  rw [e2] at q2
  have g1 := (Option.some.inj q1).symm
  have g2 := (Option.some.inj q2).symm
  rw [g1, g2] at hlt
  exact Nat.lt_irrefl 0 hlt

/-- C6: the fallback generator of a freshly built `RandomBitsGenerator` runs
on the base context narrowed by the `FallbackChannel` substep, whose string
name is exactly `"fallback"`; it has its own counter, starting at 0 like the
default counter, and its step (hence its channel and record-id space) is
distinct from the default generator's step. -/
theorem rbg_fallback_substep (ctx : Context) (t : TotalRecords)
    (h : ctx.isTotalRecordsUnspecified = true) :
    RBGStep.asRef .FallbackChannel = "fallback"
    ∧ ∃ rbg : RandomBitsGenerator,
        RandomBitsGenerator.new ctx t = some rbg
        ∧ rbg.fallbackGenerator.ctx.step = ctx.step ++ [RBGStep.asRef .FallbackChannel]
        ∧ rbg.fallbackGenerator.ctx.totalRecords = .Indeterminate
        ∧ rbg.fallbackGenerator.counter = 0
        ∧ rbg.defaultGenerator.counter = 0
        ∧ rbg.fallbackGenerator.ctx.step ≠ rbg.defaultGenerator.ctx.step := by
  obtain ⟨st, tr⟩ := ctx
  cases tr with
  | Unspecified =>
    refine ⟨rfl,
      ⟨⟨⟨0, ⟨st, .Indeterminate⟩⟩, ⟨0, ⟨st ++ ["fallback"], .Indeterminate⟩⟩, 0⟩,
        rfl, rfl, rfl, rfl, rfl, ?_⟩⟩
    intro heq
    have hlen := congrArg List.length heq
    simp at hlen
  | Specified n => exact Bool.noConfusion h
  | Indeterminate => exact Bool.noConfusion h

/-- Witness for C6 at a concrete unspecified-totals context. -/
theorem rbg_fallback_substep_witness :
    RBGStep.asRef .FallbackChannel = "fallback"
    ∧ ∃ rbg : RandomBitsGenerator,
        RandomBitsGenerator.new ⟨["protocol"], .Unspecified⟩ (.Specified 5) = some rbg
        ∧ rbg.fallbackGenerator.ctx.step
            = (Context.mk ["protocol"] .Unspecified).step ++ [RBGStep.asRef .FallbackChannel]
        ∧ rbg.fallbackGenerator.ctx.totalRecords = .Indeterminate
        ∧ rbg.fallbackGenerator.counter = 0
        ∧ rbg.defaultGenerator.counter = 0
        ∧ rbg.fallbackGenerator.ctx.step ≠ rbg.defaultGenerator.ctx.step :=
  rbg_fallback_substep ⟨["protocol"], .Unspecified⟩ (.Specified 5) rfl

/-- C9: `RandomBitsGenerator::new` discards its `total_records` argument:
any two arguments give identical generators, whose default and fallback
contexts are both set to `Indeterminate` total records, with both counters
and the abort count starting at 0. -/
theorem rbg_new_discards_totals (ctx : Context) (t1 t2 : TotalRecords)
    (h : ctx.isTotalRecordsUnspecified = true) :
    RandomBitsGenerator.new ctx t1 = RandomBitsGenerator.new ctx t2
    ∧ RandomBitsGenerator.new ctx t1
      = some ⟨⟨0, ⟨ctx.step, .Indeterminate⟩⟩,
          ⟨0, ⟨ctx.step ++ ["fallback"], .Indeterminate⟩⟩, 0⟩ := by
  obtain ⟨st, tr⟩ := ctx
  cases tr with
  | Unspecified => exact ⟨rfl, rfl⟩
  | Specified n => exact Bool.noConfusion h
  | Indeterminate => exact Bool.noConfusion h

/-- C4: `apply_sort_permutation` first shuffles the input with the two
random permutation components under the context narrowed by the
`ShuffleInputs` step, then applies the revealed permutation locally to the
shuffled sequence; position-wise, the opening of the result is the opening
of the input permuted by the combined shuffle permutation composed with the
revealed permutation, i.e. the sort permutation applied to the cleartext
vector. -/
theorem apply_sort_structure_and_opening (F : Type) [Field F] (n : Nat)
    (combine : (Fin n → Fin n) × (Fin n → Fin n) → Fin n → Fin n)
    (ctx : Context) (input : Role → Fin n → Replicated F)
    (sp : RevealedAndRandomPermutations n) :
    (apply_sort_permutation combine ctx input sp).1
      = ctx.narrow (ApplyInvStep.asRef .ShuffleInputs)
    ∧ (apply_sort_permutation combine ctx input sp).2
      = (fun r => apply_inv sp.revealed
          (shuffle_shares combine sp.randomsForShuffle input r))
    ∧ openShares (apply_sort_permutation combine ctx input sp).2
      = apply_inv (fun i => combine sp.randomsForShuffle (sp.revealed i))
          (openShares input) := by
  refine ⟨rfl, rfl, ?_⟩
  funext i
  rfl

/-- C7: `Reshare::execute` propagates a failed send or a failed receive to
the caller unchanged and returns `Ok` exactly when both channel operations
succeeded; the helper equal to `to_helper` performs no channel operation and
always returns `Ok`; `apply_sort_permutation` propagates a shuffle error
unchanged and returns `Ok` exactly when the shuffle succeeded, applying only
the local revealed permutation on top of a successful shuffle. -/
theorem reshare_apply_sort_error_propagation (Er F A : Type) [Field F]
    (role to_helper : Role) (input : Replicated F) (r0 r1 : F)
    (sendRes : Except Er Unit) (recvRes : Except Er F) (e : Er)
    (shuffleRes : Except Er A) (applyRevealed : A → A)
    (hrole : role ≠ to_helper) :
    (sendRes = .error e →
      reshareExecE role to_helper input r0 r1 sendRes recvRes = .error e)
    ∧ (sendRes = .ok () → recvRes = .error e →
      reshareExecE role to_helper input r0 r1 sendRes recvRes = .error e)
    ∧ isOkE (reshareExecE role to_helper input r0 r1 sendRes recvRes)
      = (isOkE sendRes && isOkE recvRes)
    ∧ (∀ s : Except Er Unit, ∀ q : Except Er F,
        reshareExecE to_helper to_helper input r0 r1 s q = .ok ⟨r0, r1⟩)
    ∧ (shuffleRes = .error e →
        applySortPermutationE shuffleRes applyRevealed = .error e)
    ∧ (∀ l : A, shuffleRes = .ok l →
        applySortPermutationE shuffleRes applyRevealed = .ok (applyRevealed l))
    ∧ isOkE (applySortPermutationE shuffleRes applyRevealed) = isOkE shuffleRes := by
  have hLR : role = to_helper.peer .Left ∨ role = to_helper.peer .Right := by
    cases role <;> cases to_helper <;> simp_all [Role.peer]
  have hTL : ¬ (to_helper = to_helper.peer .Left) := by cases to_helper <;> decide
  have hTR : ¬ (to_helper = to_helper.peer .Right) := by cases to_helper <;> decide
  have hRL : ¬ (to_helper.peer .Right = to_helper.peer .Left) := by
    cases to_helper <;> decide
  refine ⟨?_, ?_, ?_, ?_, ?_, ?_, ?_⟩
  · intro hs
    rcases hLR with h | h <;> subst h <;>
      simp [reshareExecE, hs, Except.bind, hRL]
  · intro hs hr
    rcases hLR with h | h <;> subst h <;>
      simp [reshareExecE, hs, hr, Except.bind, hRL]
  · rcases hLR with h | h <;> subst h <;>
      cases sendRes <;> cases recvRes <;>
      simp [reshareExecE, isOkE, Except.bind, hRL]
  · intro s q
    simp [reshareExecE, hTL, hTR]
  · intro hsh
    simp [applySortPermutationE, hsh]
  · intro l hl
    simp [applySortPermutationE, hl]
  · cases shuffleRes <;> simp [applySortPermutationE, isOkE]

/-- Witness for C7 at concrete channel outcomes over `Fp31`. -/
theorem reshare_apply_sort_error_propagation_witness :
    ((Except.ok () : Except Nat Unit) = .error 0 →
      reshareExecE .H1 .H2 (⟨3, 5⟩ : Replicated (ZMod 31)) 2 4 (.ok ()) (.ok 6)
        = .error 0)
    ∧ ((Except.ok () : Except Nat Unit) = .ok ()
        → (Except.ok 6 : Except Nat (ZMod 31)) = .error 0 →
      reshareExecE .H1 .H2 (⟨3, 5⟩ : Replicated (ZMod 31)) 2 4 (.ok ()) (.ok 6)
        = .error 0)
    ∧ isOkE (reshareExecE .H1 .H2 (⟨3, 5⟩ : Replicated (ZMod 31)) 2 4 (.ok ())
        ((Except.ok 6 : Except Nat (ZMod 31))))
      = (isOkE (Except.ok () : Except Nat Unit)
          && isOkE (Except.ok 6 : Except Nat (ZMod 31)))
    ∧ (∀ s : Except Nat Unit, ∀ q : Except Nat (ZMod 31),
        reshareExecE .H2 .H2 (⟨3, 5⟩ : Replicated (ZMod 31)) 2 4 s q = .ok ⟨2, 4⟩)
    ∧ ((Except.ok 9 : Except Nat Nat) = .error 0 →
        applySortPermutationE (Except.ok 9 : Except Nat Nat) Nat.succ = .error 0)
    ∧ (∀ l : Nat, (Except.ok 9 : Except Nat Nat) = .ok l →
        applySortPermutationE (Except.ok 9 : Except Nat Nat) Nat.succ
          = .ok (Nat.succ l))
    ∧ isOkE (applySortPermutationE (Except.ok 9 : Except Nat Nat) Nat.succ)
      = isOkE (Except.ok 9 : Except Nat Nat) :=
  reshare_apply_sort_error_propagation Nat (ZMod 31) Nat .H1 .H2 ⟨3, 5⟩ 2 4
    (.ok ()) (.ok 6) 0 (.ok 9) Nat.succ (by decide)

/-- C8: the default in-memory network constructs exactly three transports
with identities 1, 2, 3, connected pairwise into a ring (1 and 2, 2 and 3,
3 and 1 reference each other), owns all three, and `transports()` returns
three non-owning handles to those same three transports in construction
order. -/
theorem network_default_ring :
    InMemoryNetwork.default.transports.length = 3
    ∧ InMemoryNetwork.default.transports.map (fun t => t.identity.val) = [1, 2, 3]
    ∧ InMemoryNetwork.default.transports.map (fun t => t.peers.map Subtype.val)
      = [[2, 3], [1, 3], [2, 1]]
    ∧ InMemoryNetwork.default.weakTransports = [⟨0⟩, ⟨1⟩, ⟨2⟩]
    ∧ InMemoryNetwork.default.weakTransports.map
        (fun w => WeakHandle.upgrade InMemoryNetwork.default w)
      = InMemoryNetwork.default.transports.map some :=
  ⟨rfl, rfl, rfl, rfl, rfl⟩

/-- C10: `InMemoryNetwork::transport(id)` succeeds for every helper
identity (the identity type admits exactly the three ring positions, so
"every other identity" is empty); exactly one owned transport carries the
requested identity, and the returned weak handle upgrades to precisely that
transport; success is equivalent to some owned transport carrying the
identity. -/
theorem network_transport_lookup (id : HelperIdentity) :
    (InMemoryNetwork.default.transport id).isSome = true
    ∧ (InMemoryNetwork.default.transports.filter
        (fun t => t.identity == id)).length = 1
    ∧ ((InMemoryNetwork.default.transport id).bind
          (fun w => WeakHandle.upgrade InMemoryNetwork.default w))
      = (InMemoryNetwork.default.transports.filter
          (fun t => t.identity == id)).head?
    ∧ ((InMemoryNetwork.default.transport id).isSome = true
        ↔ ∃ t, t ∈ InMemoryNetwork.default.transports ∧ t.identity = id) := by
  obtain ⟨n, h1, h3⟩ := id
  interval_cases n
  · exact ⟨rfl, rfl, rfl, fun _ => ⟨netT1, List.Mem.head _, rfl⟩, fun _ => rfl⟩
  · exact ⟨rfl, rfl, rfl,
      fun _ => ⟨netT2, List.Mem.tail _ (List.Mem.head _), rfl⟩, fun _ => rfl⟩
  · exact ⟨rfl, rfl, rfl,
      fun _ => ⟨netT3, List.Mem.tail _ (List.Mem.tail _ (List.Mem.head _)), rfl⟩,
      fun _ => rfl⟩

/-- Witness for C10 at the concrete identity 1. -/
theorem network_transport_lookup_witness :
    (InMemoryNetwork.default.transport ⟨1, by omega⟩).isSome = true
    ∧ (InMemoryNetwork.default.transports.filter
        (fun t => t.identity == ⟨1, by omega⟩)).length = 1
    ∧ ((InMemoryNetwork.default.transport ⟨1, by omega⟩).bind
          (fun w => WeakHandle.upgrade InMemoryNetwork.default w))
      = (InMemoryNetwork.default.transports.filter
          (fun t => t.identity == ⟨1, by omega⟩)).head?
    ∧ ((InMemoryNetwork.default.transport ⟨1, by omega⟩).isSome = true
        ↔ ∃ t, t ∈ InMemoryNetwork.default.transports
            ∧ t.identity = ⟨1, by omega⟩) :=
  network_transport_lookup ⟨1, by omega⟩

/-- Witness for C9: two different total-records arguments give the same
generator over a concrete context. -/
theorem rbg_new_discards_totals_witness :
    RandomBitsGenerator.new ⟨["protocol"], .Unspecified⟩ (.Specified 1)
      = RandomBitsGenerator.new ⟨["protocol"], .Unspecified⟩ .Indeterminate
    ∧ RandomBitsGenerator.new ⟨["protocol"], .Unspecified⟩ (.Specified 1)
      = some ⟨⟨0, ⟨(Context.mk ["protocol"] .Unspecified).step, .Indeterminate⟩⟩,
          ⟨0, ⟨(Context.mk ["protocol"] .Unspecified).step ++ ["fallback"],
            .Indeterminate⟩⟩, 0⟩ :=
  rbg_new_discards_totals ⟨["protocol"], .Unspecified⟩ (.Specified 1) .Indeterminate rfl

end Ipa
